import Mathlib

/-!
Shallow embedding of the lattice-dynamics firetasks of
atomate/vasp/firetasks/lattice_dynamics.py.

External scientific oracles (hiphive fitting and renormalization, phonopy,
the VASP drone, numpy reductions, the MongoDB driver) are modelled either as
function parameters or as small executable Lean counterparts.  Each
run_task method is embedded as a pure function from its inputs to the list
of files it writes in the working directory together with an Except value:
ok stands for a normal return, error for a raised Python exception carrying
the exception message.
-/

namespace LatticeDynamics

/-- Python substring membership test (needle in hay) over character lists;
used to embed the check that a calculation name contains "optimiz". -/
def listContainsSub (needle hay : List Char) : Bool :=
  (List.range (hay.length + 1)).any fun i => (hay.drop i).take needle.length == needle

/-- One entry of the perturbed_tasks list in the firework spec.  The
structure, matrix and force payloads are opaque to the orchestration code,
so they are type parameters. -/
structure PerturbedTask (S M F : Type) where
  parent_structure : S
  supercell_matrix : M
  perturbed_structure : S
  forces : F

/-- One entry of calc_locs: a prior calculation with its name tag and its
directory path. -/
structure CalcLoc where
  name : String
  path : String

/-- Payload of structure_data.json: the parent structure, the regenerated
ideal supercell structure, and the supercell matrix. -/
structure StructureData (S M : Type) where
  parent_structure : S
  supercell_structure : S
  supercell_matrix : M

/-- Predicate used to pick optimization calculations out of calc_locs:
the name must contain the substring "optimiz". -/
def isOptimizLoc (c : CalcLoc) : Bool :=
  listContainsSub "optimiz".toList c.name.toList

/-- Embeds CollectPerturbedStructures.run_task.  applyTransformation is the
SupercellTransformation oracle; assimilate is the VaspDrone oracle taking a
calculation directory path to the output structure parsed from it.  The
result is the list of files written to the working directory, paired with
the outcome (the StructureData payload of structure_data.json on success,
the raised exception message on failure). -/
def collectPerturbedStructures {S M F : Type}
    (applyTransformation : M → S → S) (assimilate : String → S)
    (results : List (PerturbedTask S M F)) (calc_locs : List CalcLoc) :
    List String × Except String (StructureData S M) :=
  match results with
  | [] => ([], .error "No perturbed tasks found in firework spec")
  | r0 :: _ =>
    let opt_calc_locs := calc_locs.filter isOptimizLoc
    let structure0 :=
      match opt_calc_locs.getLast? with
      | some opt => assimilate opt.path
      | none => r0.parent_structure
    let supercell_structure := applyTransformation r0.supercell_matrix structure0
    (["perturbed_structures.json", "perturbed_forces.json", "structure_data.json"],
      .ok ⟨structure0, supercell_structure, r0.supercell_matrix⟩)

/-- Spec-side reading of "the most recent entry whose name matches, last
matching entry wins": the first match when scanning the list from the
right. -/
def lastMatching {α : Type} (p : α → Bool) (l : List α) : Option α :=
  l.reverse.find? p

/-- The last element of the filtered list is exactly the first match found
when scanning from the right. -/
theorem filter_getLast_eq_lastMatching {α : Type} (p : α → Bool) (l : List α) :
    (l.filter p).getLast? = lastMatching p l := by
  unfold lastMatching
  induction l using List.reverseRecOn with
  | nil => rfl
  | append_singleton xs x ih =>
    rw [List.filter_append, List.reverse_append]
    by_cases hp : p x
    · simp [hp]
    · simp only [List.filter_cons, hp, List.filter_nil, List.append_nil, ih,
        List.reverse_cons, List.reverse_nil, List.nil_append, List.find?]
      simp [hp]

/-- Embeds RunHiPhive.run_task from the point where the external fitting
oracle fit_force_constants has returned.  Its opaque outputs are the inputs
here: the optional force-constant object, and the imaginary-mode count
produced by the harmonic_properties oracle (merged into fitting_data before
any file is written).  The result pairs the files written with the outcome. -/
def runHiPhive {F : Type} (fcs : Option F) (n_imaginary : ℕ) :
    List String × Except String Unit :=
  match fcs with
  | none => ([], .error "Could not find a force constant solution")
  | some _ =>
    let writes := ["fitting_data.json", "thermal_data_qha.json",
      "force_constants.fcs", "parameters.txt", "cluster_space.cs"]
    if n_imaginary = 0 then
      (writes ++ ["FORCE_CONSTANTS_3RD", "FORCE_CONSTANTS_2ND"], .ok ())
    else
      (writes, .ok ())

/-- Model of np.max over a Python list of temperatures.  numpy raises on an
empty array; that case is guarded at the call site, so the empty default is
never observed. -/
def npMax : List ℚ → ℚ
  | [] => 0
  | x :: xs => xs.foldl max x

/-- Model of np.min over a Python list of temperatures. -/
def npMin : List ℚ → ℚ
  | [] => 0
  | x :: xs => xs.foldl min x

/-- Model of np.partition(ts, 1)[1]: the element that sorted order places at
index 1, that is the second-smallest value counting multiplicity. -/
def npPartitionSecond (ts : List ℚ) : ℚ :=
  ((List.insertionSort (· ≤ ·) ts).drop 1).headD 0

theorem foldl_max_mem (xs : List ℚ) (x : ℚ) : xs.foldl max x ∈ x :: xs := by
  induction xs generalizing x with
  | nil => simp [List.foldl]
  | cons y ys ih =>
    rw [List.foldl_cons]
    rcases List.mem_cons.mp (ih (max x y)) with h1 | h2
    · rw [h1]
      rcases max_choice x y with hx | hy
      · rw [hx]; exact List.mem_cons_self _ _
      · rw [hy]; exact List.mem_cons.mpr (Or.inr (List.mem_cons_self _ _))
    · exact List.mem_cons.mpr (Or.inr (List.mem_cons.mpr (Or.inr h2)))

theorem init_le_foldl_max (xs : List ℚ) (x : ℚ) : x ≤ xs.foldl max x := by
  induction xs generalizing x with
  | nil => simp [List.foldl]
  | cons y ys ih =>
    rw [List.foldl_cons]
    exact le_trans (le_max_left x y) (ih (max x y))

theorem le_foldl_max (xs : List ℚ) (x a : ℚ) (ha : a ∈ x :: xs) :
    a ≤ xs.foldl max x := by
  induction xs generalizing x with
  | nil =>
    simp at ha
    simp [List.foldl, ha]
  | cons y ys ih =>
    rw [List.foldl_cons]
    rcases List.mem_cons.mp ha with h1 | h2
    · rw [h1]; exact le_trans (le_max_left x y) (init_le_foldl_max ys (max x y))
    · rcases List.mem_cons.mp h2 with h3 | h4
      · rw [h3]; exact le_trans (le_max_right x y) (init_le_foldl_max ys (max x y))
      · exact ih (max x y) (List.mem_cons.mpr (Or.inr h4))

theorem foldl_min_mem (xs : List ℚ) (x : ℚ) : xs.foldl min x ∈ x :: xs := by
  induction xs generalizing x with
  | nil => simp [List.foldl]
  | cons y ys ih =>
    rw [List.foldl_cons]
    rcases List.mem_cons.mp (ih (min x y)) with h1 | h2
    · rw [h1]
      rcases min_choice x y with hx | hy
      · rw [hx]; exact List.mem_cons_self _ _
      · rw [hy]; exact List.mem_cons.mpr (Or.inr (List.mem_cons_self _ _))
    · exact List.mem_cons.mpr (Or.inr (List.mem_cons.mpr (Or.inr h2)))

theorem foldl_min_le_init (xs : List ℚ) (x : ℚ) : xs.foldl min x ≤ x := by
  induction xs generalizing x with
  | nil => simp [List.foldl]
  | cons y ys ih =>
    rw [List.foldl_cons]
    exact le_trans (ih (min x y)) (min_le_left x y)

theorem foldl_min_le (xs : List ℚ) (x a : ℚ) (ha : a ∈ x :: xs) :
    xs.foldl min x ≤ a := by
  induction xs generalizing x with
  | nil =>
    simp at ha
    simp [List.foldl, ha]
  | cons y ys ih =>
    rw [List.foldl_cons]
    rcases List.mem_cons.mp ha with h1 | h2
    · rw [h1]; exact le_trans (foldl_min_le_init ys (min x y)) (min_le_left x y)
    · rcases List.mem_cons.mp h2 with h3 | h4
      · rw [h3]; exact le_trans (foldl_min_le_init ys (min x y)) (min_le_right x y)
      · exact ih (min x y) (List.mem_cons.mpr (Or.inr h4))

theorem npMax_mem (ts : List ℚ) (h : ts ≠ []) : npMax ts ∈ ts := by
  match ts with
  | [] => exact absurd rfl h
  | x :: xs => exact foldl_max_mem xs x

theorem le_npMax (ts : List ℚ) (a : ℚ) (ha : a ∈ ts) : a ≤ npMax ts := by
  match ts with
  | x :: xs => exact le_foldl_max xs x a ha

theorem npMin_mem (ts : List ℚ) (h : ts ≠ []) : npMin ts ∈ ts := by
  match ts with
  | [] => exact absurd rfl h
  | x :: xs => exact foldl_min_mem xs x

theorem npMin_le (ts : List ℚ) (a : ℚ) (ha : a ∈ ts) : npMin ts ≤ a := by
  match ts with
  | x :: xs => exact foldl_min_le xs x a ha

theorem npPartitionSecond_mem (ts : List ℚ) (h : 2 ≤ ts.length) :
    npPartitionSecond ts ∈ ts := by
  have hperm := List.perm_insertionSort (α := ℚ) (· ≤ ·) ts
  have hlen : (List.insertionSort (· ≤ ·) ts).length = ts.length := hperm.length_eq
  unfold npPartitionSecond
  match hs : List.insertionSort (· ≤ ·) ts with
  | [] => rw [hs] at hlen; simp at hlen; omega
  | [a] => rw [hs] at hlen; simp at hlen; omega
  | a :: b :: rest =>
    have hb : b ∈ List.insertionSort (· ≤ ·) ts := by
      rw [hs]; exact List.mem_cons.mpr (Or.inr (List.mem_cons_self _ _))
    have := hperm.mem_iff.mp hb
    simpa [hs] using this

/-- Tagged variant of the temperature parameter accepted by
RunShengBTE.run_task: a number (int or float), a list or ndarray, a dict
with min, max and step keys, or any other Python value. -/
inductive TempSpec
  | num (x : ℚ)
  | lst (ts : List ℚ)
  | dict (tmin tmax tstep : ℚ)
  | other

/-- Temperature control parameters derived by RunShengBTE.run_task and
stored on the task (keys t, t_min, t_max, t_step). -/
structure TParams where
  t : Option ℚ
  t_min : Option ℚ
  t_max : Option ℚ
  t_step : Option ℚ
  deriving DecidableEq, Repr

/-- Embeds the temperature dispatch of RunShengBTE.run_task.  The numpy
exceptions on an empty array (np.max) and on an out-of-bounds kth
(np.partition with fewer than two entries) are embedded as errors; rational
division stands for Python float division in the step formulas. -/
def shengbteTempParams : TempSpec → Except String TParams
  | .num x => .ok ⟨some x, none, none, none⟩
  | .lst [] => .error "zero-size array to reduction operation"
  | .lst ts =>
    let t_max := npMax ts
    let t_min := npMin ts
    if t_min = 0 then
      if ts.length < 2 then .error "kth out of bounds"
      else
        let t_min2 := npPartitionSecond ts
        .ok ⟨none, some t_min2, some t_max,
          some ((t_max - t_min2) / ((ts.length : ℚ) - 2))⟩
    else
      .ok ⟨none, some t_min, some t_max,
        some ((t_max - t_min) / ((ts.length : ℚ) - 1))⟩
  | .dict tmin tmax tstep => .ok ⟨none, some tmin, some tmax, some tstep⟩
  | .other => .error "Unsupported temperature type, must be float or dict"

/-- Observable outcome of RunShengBTE.run_task: the files written to the
working directory, whether the solver subprocess was invoked, and the
task outcome. -/
structure ShengBTERun where
  files : List String
  solver_invoked : Bool
  result : Except String Unit

/-- Embeds RunShengBTE.run_task.  The temperature parameter is dispatched
first; a ValueError there is raised before the CONTROL file is written and
before the subprocess starts.  Otherwise CONTROL is written, the solver is
run with its streams captured, and a return code of exactly 1 raises. -/
def runShengBTE (temperature : TempSpec) (return_code : ℤ) : ShengBTERun :=
  match shengbteTempParams temperature with
  | .error e => ⟨[], false, .error e⟩
  | .ok _ =>
    let files := ["CONTROL", "shengbte.out", "shengbte_err.txt"]
    if return_code = 1 then
      ⟨files, true, .error "Running ShengBTE failed. Check shengbte_err.txt for details."⟩
    else
      ⟨files, true, .ok ()⟩

/-- Result of np.loadtxt on the transport output table: a one-dimensional
array when the file holds a single data row, a two-dimensional array
otherwise. -/
inductive NpLoadtxt
  | one (row : List ℚ)
  | two (rows : List (List ℚ))

/-- The padding step of ShengBTEToDb.run_task: a one-dimensional result is
given an extra leading axis. -/
def padTo2 : NpLoadtxt → List (List ℚ)
  | .one r => [r]
  | .two rs => rs

/-- Embeds the row slice bte_data columns 1 through 9, reshaped to 3 by 3. -/
def reshapeRow3x3 (r : List ℚ) : List (List ℚ) :=
  [(r.drop 1).take 3, (r.drop 4).take 3, (r.drop 7).take 3]

/-- Embeds the parsing step of ShengBTEToDb.run_task: temperatures are
column 0, thermal-conductivity tensors are columns 1 through 9 of each row
reshaped into 3 by 3 blocks. -/
def shengbteToDbParse (data : NpLoadtxt) : List ℚ × List (List (List ℚ)) :=
  let bte_data := padTo2 data
  (bte_data.map fun r => r.headD 0, bte_data.map reshapeRow3x3)

/-- Embeds pymongo find_one_and_update on the counter document with the
increment update and ReturnDocument.AFTER, as _get_fc_fitting_id calls it.
The counter store is none when the document is absent, some c when present
with value c.  With no upsert option, a missing document is not created and
none is returned; an existing document is atomically incremented and the
updated value returned. -/
def findOneAndUpdateIncAfter : Option ℕ → Option ℕ × Option ℕ
  | none => (none, none)
  | some c => (some (c + 1), some (c + 1))

/-- Embeds the insert of the fresh counter document with value 1. -/
def counterInsertOne : Option ℕ → Option ℕ := fun _ => some 1

/-- Embeds _get_fc_fitting_id: one atomic find-and-increment; on a missing
counter document the counter is initialized to 1 and 1 is returned.
Returns the allocated id and the new counter store. -/
def getFcFittingId (store : Option ℕ) : ℕ × Option ℕ :=
  match findOneAndUpdateIncAfter store with
  | (none, s) => (1, counterInsertOne s)
  | (some c, s) => (c, s)

/-- Runs n successive allocations against the same counter store, returning
the ids in order together with the final store. -/
def allocateMany : ℕ → Option ℕ → List ℕ × Option ℕ
  | 0, s => ([], s)
  | Nat.succ n, s =>
    let p := getFcFittingId s
    let q := allocateMany n p.2
    (p.1 :: q.1, q.2)

theorem allocateMany_some (n v : ℕ) :
    allocateMany n (some v) = (List.range' (v + 1) n, some (v + n)) := by
  induction n generalizing v with
  | zero => simp [allocateMany]
  | succ m ih =>
    have h1 : allocateMany (m + 1) (some v)
        = ((v + 1) :: (allocateMany m (some (v + 1))).1, (allocateMany m (some (v + 1))).2) := rfl
    rw [h1, ih (v + 1), List.range'_succ]
    simp only [Prod.mk.injEq, List.cons.injEq, Option.some.injEq]
    exact ⟨by simp, by omega⟩

/-- Names bound in the scope of RunHiPhiveRenorm.run_task at the time its
generator expressions and loop bodies are evaluated: the locals assigned by
the method, the module imports it uses, and nothing else.  In particular
nconfig and conv_thresh are bound nowhere in the module, and under Python 3
scoping the generator-expression loop variables t and T never escape into
the method scope, so the loop bodies that format per-temperature file names
with T cannot see any binding for it. -/
def renormTaskScopeNames : List String :=
  ["imaginary_tol", "fit_method", "structure_data", "parent_structure",
   "supercell_structure", "supercell_atoms", "supercell_matrix",
   "cs", "fcs", "param", "bulk_modulus", "T_renorm", "renorm_results",
   "renormalization", "Parallel", "delayed", "np", "logger"]

/-- Python name resolution against the RunHiPhiveRenorm.run_task scope. -/
def lookupName (n : String) : Except String Unit :=
  if n ∈ renormTaskScopeNames then .ok ()
  else .error ("NameError: name " ++ n ++ " is not defined")

/-- Embeds RunHiPhiveRenorm.run_task.  With an empty temperature list the
generator passed to the parallel map is never advanced, no renormalization
result exists, and the task returns normally having written nothing.  With
a nonempty list, the first advance of the generator evaluates the free
names of the delayed call, among them nconfig and conv_thresh; the body of
the result loop would additionally evaluate the free name T when formatting
force_constants_TK.fcs and parameters_TK.txt.  Each lookup that fails
raises at that point with nothing written. -/
def runHiPhiveRenorm (T_renorm : List ℚ) : List String × Except String Unit :=
  match T_renorm with
  | [] => ([], .ok ())
  | _ :: _ =>
    match lookupName "nconfig" with
    | .error e => ([], .error e)
    | .ok _ =>
      match lookupName "conv_thresh" with
      | .error e => ([], .error e)
      | .ok _ =>
        match lookupName "T" with
        | .error e => ([], .error e)
        | .ok _ => ([], .ok ())

/-- Lists agree between headD and getD at index zero. -/
theorem headD_eq_getD_zero (l : List ℚ) (d : ℚ) : l.headD d = l.getD 0 d := by
  cases l <;> rfl

/-- Claim C9: for every invocation of CollectPerturbedStructures with an
empty perturbed-sample sequence, the task fails with the fatal empty-input
error and writes no Artifact Store files. -/
theorem claim_C9_empty_input {S M F : Type}
    (applyTransformation : M → S → S) (assimilate : String → S)
    (calc_locs : List CalcLoc) :
    collectPerturbedStructures (F := F) applyTransformation assimilate [] calc_locs
      = ([], .error "No perturbed tasks found in firework spec") := rfl

/-- Claim C4: for every non-empty sample sequence, the StructureContext
supercell matrix is the first sample's matrix; the parent structure is the
output structure of the most recent prior calculation whose name contains
"optimiz" (last matching entry wins) when one exists, otherwise the first
sample's parent structure; and the stored supercell structure is the
supercell transform applied to that parent structure. -/
theorem claim_C4_structure_context {S M F : Type}
    (applyTransformation : M → S → S) (assimilate : String → S)
    (r0 : PerturbedTask S M F) (rs : List (PerturbedTask S M F))
    (calc_locs : List CalcLoc) :
    ∃ sd : StructureData S M,
      (collectPerturbedStructures applyTransformation assimilate (r0 :: rs) calc_locs).2
        = .ok sd ∧
      sd.supercell_matrix = r0.supercell_matrix ∧
      sd.parent_structure =
        (match lastMatching isOptimizLoc calc_locs with
         | some opt => assimilate opt.path
         | none => r0.parent_structure) ∧
      sd.supercell_structure
        = applyTransformation r0.supercell_matrix sd.parent_structure := by
  refine ⟨_, rfl, rfl, ?_, rfl⟩
  rw [← filter_getLast_eq_lastMatching]

/-- Claim C2: a null force-constants result from the external fitting
oracle is fatal: RunHiPhive raises the fitting-failure error and writes
none of its own output artifacts, leaving the Artifact Store unchanged. -/
theorem claim_C2_null_fit_fatal {F : Type} (n_imaginary : ℕ) :
    runHiPhive (F := F) none n_imaginary
      = ([], .error "Could not find a force constant solution") := rfl

/-- Claim C1: for a successful fit, zero imaginary modes means both the
transport-solver-format export FORCE_CONSTANTS_3RD and the
phonon-code-format export FORCE_CONSTANTS_2ND are written, while a nonzero
imaginary-mode count means neither is written; in both cases the task
completes without error. -/
theorem claim_C1_conditional_export {F : Type} (fcs : F) (n_imaginary : ℕ) :
    (n_imaginary = 0 →
      "FORCE_CONSTANTS_3RD" ∈ (runHiPhive (some fcs) n_imaginary).1 ∧
      "FORCE_CONSTANTS_2ND" ∈ (runHiPhive (some fcs) n_imaginary).1) ∧
    (n_imaginary ≠ 0 →
      "FORCE_CONSTANTS_3RD" ∉ (runHiPhive (some fcs) n_imaginary).1 ∧
      "FORCE_CONSTANTS_2ND" ∉ (runHiPhive (some fcs) n_imaginary).1) ∧
    (runHiPhive (some fcs) n_imaginary).2 = .ok () := by
  by_cases h : n_imaginary = 0 <;> simp [runHiPhive, h]

/-- Witness for claim C1 at a concrete successful fit with zero imaginary
modes. -/
theorem claim_C1_witness :
    "FORCE_CONSTANTS_3RD" ∈ (runHiPhive (some ()) 0).1 ∧
    "FORCE_CONSTANTS_2ND" ∈ (runHiPhive (some ()) 0).1 :=
  (claim_C1_conditional_export () 0).1 rfl

/-- Claim C5: for a temperature sequence, t_max is the maximum of the
sequence; if the minimum is exactly zero then t_min is the second-smallest
value and t_step is the span divided by length minus two, otherwise t_min
is the minimum and t_step is the span divided by length minus one; in
particular the sequence 0, 100, 200, 300 yields t_min 100, t_max 300 and
t_step 100. -/
theorem claim_C5_temperature_derivation (ts : List ℚ) (hne : ts ≠ [])
    (hz : npMin ts = 0 → 2 ≤ ts.length) :
    (∃ p : TParams, shengbteTempParams (.lst ts) = .ok p ∧
      p.t_max = some (npMax ts) ∧ npMax ts ∈ ts ∧ (∀ x ∈ ts, x ≤ npMax ts) ∧
      (npMin ts = 0 →
        p.t_min = some (npPartitionSecond ts) ∧ npPartitionSecond ts ∈ ts ∧
        p.t_step = some ((npMax ts - npPartitionSecond ts) / ((ts.length : ℚ) - 2))) ∧
      (npMin ts ≠ 0 →
        p.t_min = some (npMin ts) ∧ npMin ts ∈ ts ∧ (∀ x ∈ ts, npMin ts ≤ x) ∧
        p.t_step = some ((npMax ts - npMin ts) / ((ts.length : ℚ) - 1)))) ∧
    shengbteTempParams (.lst [0, 100, 200, 300])
      = .ok ⟨none, some 100, some 300, some 100⟩ := by
  refine ⟨?_, ?_⟩
  case refine_2 =>
    have h1 : npMin [0, 100, 200, 300] = 0 := by decide
    have h2 : npPartitionSecond [0, 100, 200, 300] = 100 := by decide
    have h3 : npMax [0, 100, 200, 300] = 300 := by decide
    simp only [shengbteTempParams, h1, h2, h3]
    norm_num
  match ts, hne, hz with
  | t0 :: ts', _, hz =>
    by_cases h0 : npMin (t0 :: ts') = 0
    · have hlen : ¬ ((t0 :: ts').length < 2) := by
        have := hz h0
        omega
      refine ⟨⟨none, some (npPartitionSecond (t0 :: ts')), some (npMax (t0 :: ts')),
        some ((npMax (t0 :: ts') - npPartitionSecond (t0 :: ts'))
          / (((t0 :: ts').length : ℚ) - 2))⟩,
        ?_, rfl, npMax_mem _ (List.cons_ne_nil _ _),
        fun x hx => le_npMax _ x hx, ?_, ?_⟩
      · have h2 := hz h0
        simp only [List.length_cons] at h2
        simp [shengbteTempParams, h0, hlen]
        omega
      · intro _
        exact ⟨rfl, npPartitionSecond_mem _ (hz h0), rfl⟩
      · intro hcontra
        exact absurd h0 hcontra
    · refine ⟨⟨none, some (npMin (t0 :: ts')), some (npMax (t0 :: ts')),
        some ((npMax (t0 :: ts') - npMin (t0 :: ts'))
          / (((t0 :: ts').length : ℚ) - 1))⟩,
        ?_, rfl, npMax_mem _ (List.cons_ne_nil _ _),
        fun x hx => le_npMax _ x hx, ?_, ?_⟩
      · simp [shengbteTempParams, h0]
      · intro hcontra
        exact absurd hcontra h0
      · intro _
        exact ⟨rfl, npMin_mem _ (List.cons_ne_nil _ _), fun x hx => npMin_le _ x hx, rfl⟩

/-- Witness for claim C5 at the spec's concrete sequence 0, 100, 200, 300. -/
theorem claim_C5_witness :
    shengbteTempParams (.lst [0, 100, 200, 300])
      = .ok ⟨none, some 100, some 300, some 100⟩ :=
  (claim_C5_temperature_derivation [0, 100, 200, 300] (List.cons_ne_nil _ _)
    (fun _ => by decide)).2

/-- Claim C6: with a well-formed temperature parameter, RunShengBTE raises
the transport-solver error exactly when the solver subprocess exits with
code 1; any other exit code, including nonzero codes such as 2, does not
raise and the task completes normally. -/
theorem claim_C6_exit_code (temperature : TempSpec) (return_code : ℤ)
    (h : ∃ p, shengbteTempParams temperature = .ok p) :
    ((∃ e, (runShengBTE temperature return_code).result = .error e)
        ↔ return_code = 1) ∧
    (return_code ≠ 1 → (runShengBTE temperature return_code).result = .ok ()) ∧
    (runShengBTE temperature return_code).solver_invoked = true := by
  obtain ⟨p, hp⟩ := h
  unfold runShengBTE
  rw [hp]
  by_cases hrc : return_code = 1 <;> simp [hrc]

/-- Witness for claim C6: exit code 2 at a scalar temperature completes
normally. -/
theorem claim_C6_witness : (runShengBTE (.num 300) 2).result = .ok () :=
  (claim_C6_exit_code (.num 300) 2 ⟨_, rfl⟩).2.1 (by decide)

/-- Claim C10: a temperature parameter that is neither a number nor a
sequence nor a dict raises a ValueError before the CONTROL file is written
and before the external solver subprocess is invoked. -/
theorem claim_C10_bad_temperature_type (return_code : ℤ) :
    (runShengBTE .other return_code).files = [] ∧
    (runShengBTE .other return_code).solver_invoked = false ∧
    (runShengBTE .other return_code).result
      = .error "Unsupported temperature type, must be float or dict" :=
  ⟨rfl, rfl, rfl⟩

/-- Claim C7: the first FittingRunId allocation on an empty counter store
returns 1 and creates the counter document; an allocation on an existing
counter with value v is the single atomic find-and-increment primitive and
returns v plus 1; iterating allocations from the empty counter therefore
yields the distinct consecutive ids 1 through n. -/
theorem claim_C7_fitting_id_allocation :
    getFcFittingId none = (1, some 1) ∧
    (∀ v, getFcFittingId (some v)
      = ((findOneAndUpdateIncAfter (some v)).1.getD 0, (findOneAndUpdateIncAfter (some v)).2) ∧
      getFcFittingId (some v) = (v + 1, some (v + 1))) ∧
    (∀ n, (allocateMany (n + 1) none).1 = List.range' 1 (n + 1) ∧
      (allocateMany (n + 1) none).1.Nodup) := by
  refine ⟨rfl, fun v => ⟨rfl, rfl⟩, fun n => ?_⟩
  have h2 : (allocateMany (n + 1) none).1 = 1 :: (allocateMany n (some 1)).1 := rfl
  have h4 : (allocateMany n (some 1)).1 = List.range' (1 + 1) n := by
    rw [allocateMany_some n 1]
  rw [h2, h4, ← List.range'_succ]
  exact ⟨rfl, List.nodup_range' 1 (n + 1)⟩

/-- Small helper: getD on a take of a drop indexes into the original list. -/
theorem getD_drop_take (r : List ℚ) (m b : ℕ) (hb : b < 3) :
    ((r.drop m).take 3).getD b 0 = r.getD (m + b) 0 := by
  rw [List.getD_eq_getElem?_getD, List.getD_eq_getElem?_getD,
    List.getElem?_take_of_lt hb, List.getElem?_drop]

/-- Claim C8: a single-row table of ten values is padded to two dimensions
and parses to exactly one 3 by 3 thermal-conductivity tensor at the row's
temperature; a multi-row table parses row by row, the temperature taken
from column 0 and the tensor from columns 1 through 9 of each row. -/
theorem claim_C8_bte_parse (rows : List (List ℚ)) :
    ((shengbteToDbParse (.two rows)).1.length = rows.length ∧
     (shengbteToDbParse (.two rows)).2.length = rows.length ∧
     (∀ i, i < rows.length →
        (shengbteToDbParse (.two rows)).1.getD i 0 = (rows.getD i []).getD 0 0 ∧
        ∀ a b, a < 3 → b < 3 →
          ((((shengbteToDbParse (.two rows)).2.getD i []).getD a []).getD b 0
            = (rows.getD i []).getD (1 + 3 * a + b) 0))) ∧
    (∀ t k1 k2 k3 k4 k5 k6 k7 k8 k9 : ℚ,
      shengbteToDbParse (.one [t, k1, k2, k3, k4, k5, k6, k7, k8, k9])
        = ([t], [[[k1, k2, k3], [k4, k5, k6], [k7, k8, k9]]])) := by
  refine ⟨⟨by simp [shengbteToDbParse, padTo2], by simp [shengbteToDbParse, padTo2],
    fun i hi => ?_⟩, fun t k1 k2 k3 k4 k5 k6 k7 k8 k9 => rfl⟩
  have hrow : rows[i]? = some (rows.getD i []) := by
    rw [List.getElem?_eq_getElem hi, List.getD_eq_getElem?_getD,
      List.getElem?_eq_getElem hi]
    rfl
  constructor
  · rw [List.getD_eq_getElem?_getD]
    show ((rows.map (fun r => r.headD 0))[i]?).getD 0 = _
    rw [List.getElem?_map, hrow]
    exact headD_eq_getD_zero _ _
  · intro a b ha hb
    have hmap : ((shengbteToDbParse (.two rows)).2.getD i [])
        = reshapeRow3x3 (rows.getD i []) := by
      rw [List.getD_eq_getElem?_getD]
      show ((rows.map reshapeRow3x3)[i]?).getD [] = _
      rw [List.getElem?_map, hrow]
      rfl
    rw [hmap]
    interval_cases a
    · show (((rows.getD i []).drop 1).take 3).getD b 0 = _
      rw [getD_drop_take _ 1 b hb]
    · show (((rows.getD i []).drop 4).take 3).getD b 0 = _
      rw [getD_drop_take _ 4 b hb]
    · show (((rows.getD i []).drop 7).take 3).getD b 0 = _
      rw [getD_drop_take _ 7 b hb]

/-- Witness for claim C8 at the spec's concrete one-row table. -/
theorem claim_C8_witness :
    (shengbteToDbParse (.two [[300, 1, 2, 3, 4, 5, 6, 7, 8, 9]])).1.getD 0 0 = 300 ∧
    (((shengbteToDbParse (.two [[300, 1, 2, 3, 4, 5, 6, 7, 8, 9]])).2.getD 0 []).getD 0 []).getD 1 0
      = 2 := by
  have h := (claim_C8_bte_parse [[300, 1, 2, 3, 4, 5, 6, 7, 8, 9]]).1.2.2 0 (by decide)
  exact ⟨h.1.trans rfl, (h.2 0 1 (by decide) (by decide)).trans rfl⟩

/-- Claim C3 asserts that every renormalization record written out gets its
force-constant and parameter files named with the record's own temperature.
The embedded task shows the code cannot write those files at all: with any
nonempty temperature list, the first advance of the renormalization
generator expression evaluates the unbound names nconfig and conv_thresh
and raises a NameError before anything is written, and the loop bodies that
would format the per-temperature file names refer to a name T that is bound
nowhere in the method scope under Python 3 generator-expression scoping. -/
theorem claim_C3_renorm_name_error :
    runHiPhiveRenorm [300]
      = ([], .error "NameError: name nconfig is not defined") ∧
    "nconfig" ∉ renormTaskScopeNames ∧
    "conv_thresh" ∉ renormTaskScopeNames ∧
    "T" ∉ renormTaskScopeNames :=
  ⟨rfl, by decide, by decide, by decide⟩

end LatticeDynamics


